import Mathlib

/-!
Shallow embedding of the SocialSphere (TaskFlow) task/project tracker core:
the Entity Store (`src/server/storage.ts`), the request handlers
(`src/server/routes.ts`) and the zod validation schemas
(`src/shared/schema.ts`).

Modelling conventions:
- JavaScript `Date` values are modelled as `Nat` timestamps; each mutating
  operation receives the current time `now : Nat` (the value of `new Date()`).
- Entity tables (`Map<number, T>` in `MemStorage`) are modelled as
  `List T` keyed on the record's `id` field; `Map.set` is assoc-list
  update (replace the entry with that id, else append), `Map.get` is
  `find?`, `Map.delete` removes the entries with that id and reports
  whether one existed, `Map.values()` is the list itself.  The code always
  calls `set(id, v)` with `v.id = id`, so keying on the `id` field is
  faithful.
- A JSON field that may be absent is an outer `Option` (with `none` =
  key absent); a field that may be `null` is an inner `Option` where the
  stored distinction between `undefined` and `null` is observable, and a
  single `Option` where it is not (both are falsy and both compare unequal
  to every string/number the code compares against).
- The stored `completed` column is modelled as `Bool`, with a record
  created from an input lacking `completed` storing `false`: the code only
  ever uses the stored value in boolean position (`task.completed`,
  `!task.completed`), where `undefined` and `false` behave identically.
- The `users` table is not modelled: no claim touches user records; a
  principal is just its numeric id (`req.user!.id`).
-/

namespace TaskFlow

/-- Stored Project record (`projects` table / `Project` type in
`src/shared/schema.ts`).  `status` is `Option String` because `MemStorage`
stores whatever the insert object carried (possibly no key at all); the
claims only compare it against string literals. -/
structure Project where
  id : Nat
  name : String
  description : Option String
  status : Option String
  userId : Nat
  createdAt : Nat
  dueDate : Option Nat
deriving Repr, DecidableEq

/-- Stored Task record (`tasks` table / `Task` type in
`src/shared/schema.ts`). -/
structure Task where
  id : Nat
  title : String
  description : Option String
  status : Option String
  userId : Nat
  projectId : Nat
  completed : Bool
  createdAt : Nat
  completedAt : Option Nat
  dueDate : Option Nat
deriving Repr, DecidableEq

/-- State of `MemStorage`: the two entity tables the claims are about and
the two id counters (`projectIdCounter`, `taskIdCounter`). -/
structure StoreState where
  projects : List Project
  tasks : List Task
  projectIdCounter : Nat
  taskIdCounter : Nat
deriving Repr, DecidableEq

/-- Assoc-list update keyed by `key`: `Map.set(k, v)` — replace the entry
whose key is `k`, or append when no such entry exists. -/
def setById {α : Type} (key : α → Nat) : List α → Nat → α → List α
  | [], _, v => [v]
  | x :: xs, k, v => if key x = k then v :: xs else x :: setById key xs k v

/-- Assoc-list lookup keyed by `key`: `Map.get(k)`. -/
def getById {α : Type} (key : α → Nat) (l : List α) (k : Nat) : Option α :=
  l.find? (fun x => key x == k)

/-- Model of `storage.getProject(id)` (src/server/storage.ts:102). -/
def getProject (s : StoreState) (id : Nat) : Option Project :=
  getById Project.id s.projects id

/-- Model of `storage.getTask(id)` (src/server/storage.ts:150). -/
def getTask (s : StoreState) (id : Nat) : Option Task :=
  getById Task.id s.tasks id

/-- Model of `storage.getProjectsByUserId(userId)` (src/server/storage.ts:106). -/
def getProjectsByUserId (s : StoreState) (userId : Nat) : List Project :=
  s.projects.filter (fun p => p.userId == userId)

/-- Model of `storage.getTasksByUserId(userId)` (src/server/storage.ts:154). -/
def getTasksByUserId (s : StoreState) (userId : Nat) : List Task :=
  s.tasks.filter (fun t => t.userId == userId)

/-- Model of `storage.getTasksByProjectId(projectId)` (src/server/storage.ts:160). -/
def getTasksByProjectId (s : StoreState) (projectId : Nat) : List Task :=
  s.tasks.filter (fun t => t.projectId == projectId)

/-- Model of `storage.countProjectsByUserId(userId)` (src/server/storage.ts:131). -/
def countProjectsByUserId (s : StoreState) (userId : Nat) : Nat :=
  (getProjectsByUserId s userId).length

/-- Parsed output of `projectValidationSchema` with `userId` supplied by
the route.  `description` keeps the outer `Option` (key present or not)
because the merge in `updateProject` distinguishes the two; `dueDate`
carries no outer `Option`: the zod `.transform` maps `undefined` to
`null`, so after parsing the key is always present. -/
structure ProjectData where
  name : String
  description : Option (Option String)
  status : Option String
  userId : Nat
  dueDate : Option Nat
deriving Repr, DecidableEq

/-- Model of `storage.createProject(insertProject)` (src/server/storage.ts:90):
fresh id from the counter, `createdAt` stamped with the current time. -/
def createProject (s : StoreState) (pd : ProjectData) (now : Nat) :
    Project × StoreState :=
  let p : Project :=
    { id := s.projectIdCounter
      name := pd.name
      description := pd.description.join
      status := pd.status
      userId := pd.userId
      createdAt := now
      dueDate := pd.dueDate }
  (p, { s with
        projects := setById Project.id s.projects p.id p
        projectIdCounter := s.projectIdCounter + 1 })

/-- The spread `{ ...project, ...projectData }` in
`MemStorage.updateProject` (src/server/storage.ts:116) for a parsed
`ProjectData`: `name`, `userId` and `dueDate` keys are always present in
the parsed data and overwrite; `description` and `status` overwrite only
when their key is present; `id` and `createdAt` are not in the parsed
data and are retained. -/
def applyProjectUpdate (p : Project) (pd : ProjectData) : Project :=
  { p with
    name := pd.name
    userId := pd.userId
    dueDate := pd.dueDate
    description := match pd.description with
      | none => p.description
      | some d => d
    status := match pd.status with
      | none => p.status
      | some st => some st }

/-- Model of `storage.updateProject(id, updateData)` (src/server/storage.ts:112). -/
def updateProject (s : StoreState) (id : Nat) (pd : ProjectData) :
    Option Project × StoreState :=
  match getProject s id with
  | none => (none, s)
  | some p =>
    let p' := applyProjectUpdate p pd
    (some p', { s with projects := setById Project.id s.projects id p' })

/-- Model of `storage.deleteTask(id)` (src/server/storage.ts:186):
`Map.delete` removes the entry and reports whether it existed. -/
def deleteTask (s : StoreState) (id : Nat) : Bool × StoreState :=
  ((getTask s id).isSome,
   { s with tasks := s.tasks.filter (fun t => !(t.id == id)) })

/-- Model of `storage.deleteProject(id)` (src/server/storage.ts:121): deletes every
task whose `projectId` matches, then deletes the project, reporting
whether the project existed. -/
def deleteProject (s : StoreState) (id : Nat) : Bool × StoreState :=
  let related := getTasksByProjectId s id
  let s1 := related.foldl (fun acc t => (deleteTask acc t.id).2) s
  ((getProject s1 id).isSome,
   { s1 with projects := s1.projects.filter (fun p => !(p.id == id)) })

/-- Parsed output of `taskValidationSchema` with `userId` supplied by the
route.  `description` is collapsed to a single `Option` (it is only ever
spread into the stored record, where `undefined` and `null` are
indistinguishable to the claims); `completed` is the optional boolean of
`insertTaskSchema`; `dueDate` is always materialised by the transform. -/
structure TaskData where
  title : String
  description : Option String
  status : Option String
  userId : Nat
  projectId : Nat
  completed : Option Bool
  dueDate : Option Nat
deriving Repr, DecidableEq

/-- Model of `storage.createTask(insertTask)` (src/server/storage.ts:137): fresh
id, `createdAt := now`, and `completedAt := null` written after the
spread, hence unconditionally `none`. -/
def createTask (s : StoreState) (td : TaskData) (now : Nat) :
    Task × StoreState :=
  let t : Task :=
    { id := s.taskIdCounter
      title := td.title
      description := td.description
      status := td.status
      userId := td.userId
      projectId := td.projectId
      completed := td.completed.getD false
      createdAt := now
      completedAt := none
      dueDate := td.dueDate }
  (t, { s with
        tasks := setById Task.id s.tasks t.id t
        taskIdCounter := s.taskIdCounter + 1 })

/-- Raw body of `PUT /api/tasks/:id` (`req.body` is handed to
`storage.updateTask` unvalidated, src/server/routes.ts:239); every field
is optional, and the nullable ones keep the inner `Option`. -/
structure TaskUpdate where
  title : Option String := none
  description : Option (Option String) := none
  status : Option String := none
  userId : Option Nat := none
  projectId : Option Nat := none
  completed : Option Bool := none
  completedAt : Option (Option Nat) := none
  dueDate : Option (Option Nat) := none
deriving Repr, DecidableEq

/-- The spread `{ ...task, ...updateData }` in `updateTask`
(src/server/storage.ts:170): fields whose key is present overwrite. -/
def applyTaskUpdate (t : Task) (u : TaskUpdate) : Task :=
  { t with
    title := u.title.getD t.title
    description := match u.description with
      | none => t.description
      | some d => d
    status := match u.status with
      | none => t.status
      | some st => some st
    userId := u.userId.getD t.userId
    projectId := u.projectId.getD t.projectId
    completed := u.completed.getD t.completed
    completedAt := match u.completedAt with
      | none => t.completedAt
      | some c => c
    dueDate := match u.dueDate with
      | none => t.dueDate
      | some d => d }

/-- Model of `MemStorage.updateTask(id, updateData)` (src/server/storage.ts:166):
merge, then the two edge-trigger rules: `updateData.completed` truthy and
stored task not completed sets `completedAt = now`;
`updateData.completed === false` and stored task completed clears it. -/
def memUpdateTask (s : StoreState) (id : Nat) (u : TaskUpdate) (now : Nat) :
    Option Task × StoreState :=
  match getTask s id with
  | none => (none, s)
  | some t =>
    let t1 := applyTaskUpdate t u
    let t2 := if u.completed = some true && !t.completed then
        { t1 with completedAt := some now } else t1
    let t3 := if u.completed = some false && t.completed then
        { t2 with completedAt := none } else t2
    (some t3, { s with tasks := setById Task.id s.tasks id t3 })

/-- Model of `DatabaseStorage.updateTask(id, updateData)`
(src/server/storage.ts:317): the code first mutates `updateData` —
`completed === true` with a stored not-completed row adds
`completedAt = now`, and `completed === false` adds `completedAt = null`
unconditionally — then runs `UPDATE ... SET updateData WHERE id`,
modelled as the same merge on the stored row. -/
def dbUpdateTask (s : StoreState) (id : Nat) (u : TaskUpdate) (now : Nat) :
    Option Task × StoreState :=
  let u1 := if u.completed = some true then
      match getTask s id with
      | some t => if !t.completed then { u with completedAt := some (some now) } else u
      | none => u
    else u
  let u2 := if u1.completed = some false then { u1 with completedAt := some none } else u1
  match getTask s id with
  | none => (none, s)
  | some t =>
    let t' := applyTaskUpdate t u2
    (some t', { s with tasks := setById Task.id s.tasks id t' })

/-- Model of `storage.completeTask(id)` (src/server/storage.ts:190 and the
behaviourally identical src/server/storage.ts:348): unconditionally sets
`completed = true`, `status = "completed"`, `completedAt = now`. -/
def completeTask (s : StoreState) (id : Nat) (now : Nat) :
    Option Task × StoreState :=
  match getTask s id with
  | none => (none, s)
  | some t =>
    let t' := { t with
                completed := true
                status := some "completed"
                completedAt := some now }
    (some t', { s with tasks := setById Task.id s.tasks id t' })

/-- Request body of the project routes (client-controlled JSON; the route
overwrites `userId` before parsing, so a body-supplied `userId` is
irrelevant and not modelled). -/
structure ProjectBody where
  name : Option String := none
  description : Option (Option String) := none
  status : Option String := none
  dueDate : Option (Option Nat) := none
deriving Repr, DecidableEq

/-- Validation of the optional nullable `description` field
(`z.string().max(500).optional().nullable()`): absent and `null` pass
through, a string passes iff its length is at most 500. -/
def checkDescription : Option (Option String) → Option (Option (Option String))
  | none => some none
  | some none => some (some none)
  | some (some d) => if d.length ≤ 500 then some (some (some d)) else none

/-- Model of `projectValidationSchema.parse({...req.body, userId})`
(src/shared/schema.ts:76): `name` is required with length 1–100,
`description` optional nullable with length at most 500, `status`
optional, and the `dueDate` transform always materialises the key
(`undefined` becomes `null`).  `none` models a thrown `ZodError`. -/
def parseProjectBody (b : ProjectBody) (userId : Nat) : Option ProjectData := do
  let name ← b.name
  if name.length < 1 || name.length > 100 then none else
  let descr ← checkDescription b.description
  pure { name := name, description := descr, status := b.status,
         userId := userId, dueDate := b.dueDate.join }

/-- Request body of `POST /api/tasks` (client-controlled JSON; `userId`
is overwritten by the route before parsing). -/
structure TaskBody where
  title : Option String := none
  description : Option (Option String) := none
  status : Option String := none
  projectId : Option Nat := none
  completed : Option Bool := none
  dueDate : Option (Option Nat) := none
deriving Repr, DecidableEq

/-- Model of `taskValidationSchema.parse({...req.body, userId})`
(src/shared/schema.ts:82): `title` required with length 1–100,
`description` optional nullable with length at most 500, `projectId`
required and at least 1 (`z.number().min(1)`), `completed` optional,
`dueDate` materialised by the transform. -/
def parseTaskBody (b : TaskBody) (userId : Nat) : Option TaskData := do
  let title ← b.title
  if title.length < 1 || title.length > 100 then none else
  let descr ← checkDescription b.description
  let pid ← b.projectId
  if pid < 1 then none else
  pure { title := title, description := descr.join, status := b.status,
         userId := userId, projectId := pid, completed := b.completed,
         dueDate := b.dueDate.join }

/-- Outcome of a request handler, by the HTTP response the code sends:
`ok` (200/201/204 with payload), `notFound` (404), `forbidden` (403),
`validationFailed` (400 from a `ZodError`), `quotaExceeded`
(400 "Maximum of 4 projects allowed"). -/
inductive RouteResult (α : Type) where
  | ok (val : α)
  | notFound
  | forbidden
  | validationFailed
  | quotaExceeded
deriving Repr, DecidableEq

/-- Handler `GET /api/projects/:id` (src/server/routes.ts:32): read-only, so no
state is returned. -/
def getProjectRoute (s : StoreState) (uid pid : Nat) : RouteResult Project :=
  match getProject s pid with
  | none => .notFound
  | some p => if p.userId = uid then .ok p else .forbidden

/-- Handler `POST /api/projects` (src/server/routes.ts:52): the quota check runs
before validation. -/
def createProjectRoute (s : StoreState) (uid : Nat) (b : ProjectBody)
    (now : Nat) : RouteResult Project × StoreState :=
  if 4 ≤ countProjectsByUserId s uid then (.quotaExceeded, s)
  else match parseProjectBody b uid with
    | none => (.validationFailed, s)
    | some pd =>
      let r := createProject s pd now
      (.ok r.1, r.2)

/-- Handler `PUT /api/projects/:id` (src/server/routes.ts:79): existence, then
ownership, then validation, then the store merge.  The inner `notFound`
arm mirrors the impossible `updateProject` miss (the project was just
fetched). -/
def updateProjectRoute (s : StoreState) (uid pid : Nat) (b : ProjectBody) :
    RouteResult Project × StoreState :=
  match getProject s pid with
  | none => (.notFound, s)
  | some p =>
    if p.userId ≠ uid then (.forbidden, s)
    else match parseProjectBody b uid with
      | none => (.validationFailed, s)
      | some pd =>
        match updateProject s pid pd with
        | (some p', s') => (.ok p', s')
        | (none, s') => (.notFound, s')

/-- Handler `DELETE /api/projects/:id` (src/server/routes.ts:110). -/
def deleteProjectRoute (s : StoreState) (uid pid : Nat) :
    RouteResult Unit × StoreState :=
  match getProject s pid with
  | none => (.notFound, s)
  | some p =>
    if p.userId ≠ uid then (.forbidden, s)
    else (.ok (), (deleteProject s pid).2)

/-- Handler `GET /api/tasks/:id` (src/server/routes.ts:162). -/
def getTaskRoute (s : StoreState) (uid tid : Nat) : RouteResult Task :=
  match getTask s tid with
  | none => .notFound
  | some t => if t.userId = uid then .ok t else .forbidden

/-- Handler `POST /api/tasks` (src/server/routes.ts:182): validation first, then
the target project's existence and ownership, then the store write. -/
def createTaskRoute (s : StoreState) (uid : Nat) (b : TaskBody) (now : Nat) :
    RouteResult Task × StoreState :=
  match parseTaskBody b uid with
  | none => (.validationFailed, s)
  | some td =>
    match getProject s td.projectId with
    | none => (.notFound, s)
    | some p =>
      if p.userId ≠ uid then (.forbidden, s)
      else
        let r := createTask s td now
        (.ok r.1, r.2)

/-- Handler `PUT /api/tasks/:id` (src/server/routes.ts:213): task existence and
ownership, then — only when `req.body.projectId` is truthy (nonzero) and
differs from the stored `projectId` — existence and ownership of the new
project, then `storage.updateTask(taskId, req.body)` with the raw body.
The storage bound at src/server/storage.ts:363 is `DatabaseStorage`; the
handler is modelled over the repository's in-memory implementation of the
same `IStorage` interface (`memUpdateTask`), whose single behavioural
difference from `dbUpdateTask` is analysed separately. -/
def updateTaskRoute (s : StoreState) (uid tid : Nat) (b : TaskUpdate)
    (now : Nat) : RouteResult Task × StoreState :=
  match getTask s tid with
  | none => (.notFound, s)
  | some t =>
    if t.userId ≠ uid then (.forbidden, s)
    else
      let proceed : RouteResult Task × StoreState :=
        match memUpdateTask s tid b now with
        | (some t', s') => (.ok t', s')
        | (none, s') => (.notFound, s')
      match b.projectId with
      | some p =>
        if p ≠ 0 ∧ p ≠ t.projectId then
          match getProject s p with
          | none => (.notFound, s)
          | some pr => if pr.userId ≠ uid then (.forbidden, s) else proceed
        else proceed
      | none => proceed

/-- Handler `DELETE /api/tasks/:id` (src/server/routes.ts:246). -/
def deleteTaskRoute (s : StoreState) (uid tid : Nat) :
    RouteResult Unit × StoreState :=
  match getTask s tid with
  | none => (.notFound, s)
  | some t =>
    if t.userId ≠ uid then (.forbidden, s)
    else (.ok (), (deleteTask s tid).2)

/-- Handler `POST /api/tasks/:id/complete` (src/server/routes.ts:267). -/
def completeTaskRoute (s : StoreState) (uid tid : Nat) (now : Nat) :
    RouteResult Task × StoreState :=
  match getTask s tid with
  | none => (.notFound, s)
  | some t =>
    if t.userId ≠ uid then (.forbidden, s)
    else match completeTask s tid now with
      | (some t', s') => (.ok t', s')
      | (none, s') => (.notFound, s')

/-- Response shape of `GET /api/stats`. -/
structure Stats where
  totalProjects : Nat
  totalTasks : Nat
  completedTasks : Nat
  inProgressTasks : Nat
deriving Repr, DecidableEq

/-- Handler `GET /api/stats` (src/server/routes.ts:289). -/
def getStatsRoute (s : StoreState) (uid : Nat) : Stats :=
  let userTasks := getTasksByUserId s uid
  { totalProjects := (getProjectsByUserId s uid).length
    totalTasks := userTasks.length
    completedTasks := (userTasks.filter (fun t => t.completed)).length
    inProgressTasks :=
      (userTasks.filter
        (fun t => !t.completed && t.status == some "in-progress")).length }

/-! Helper lemmas about the assoc-list operations. -/

theorem getById_setById_self {α : Type} (key : α → Nat) (l : List α)
    (k : Nat) (v : α) (h : key v = k) :
    getById key (setById key l k v) k = some v := by
  induction l with
  | nil => simp [setById, getById, List.find?_cons, h]
  | cons x xs ih =>
    by_cases hx : key x = k
    · simp [setById, hx, getById, List.find?_cons, h]
    · simpa [setById, hx, getById, List.find?_cons] using ih

theorem length_filter_setById_le {α : Type} (key : α → Nat) (l : List α)
    (k : Nat) (v : α) (p : α → Bool) :
    ((setById key l k v).filter p).length ≤ (l.filter p).length + 1 := by
  induction l with
  | nil =>
    by_cases hv : p v = true <;> simp [setById, List.filter, hv]
  | cons x xs ih =>
    by_cases hx : key x = k
    · by_cases hv : p v = true <;> by_cases hpx : p x = true <;>
        simp [setById, hx, List.filter_cons, hv, hpx]
      all_goals omega
    · by_cases hpx : p x = true <;>
        simp [setById, hx, List.filter_cons, hpx]
      all_goals omega

theorem mem_tasks_foldl_deleteTask (l : List Task) (s : StoreState)
    (t' : Task)
    (h : t' ∈ (l.foldl (fun acc t => (deleteTask acc t.id).2) s).tasks) :
    t' ∈ s.tasks ∧ ∀ r ∈ l, t'.id ≠ r.id := by
  induction l generalizing s with
  | nil => simpa using h
  | cons r rs ih =>
    simp only [List.foldl_cons] at h
    obtain ⟨hmem, hall⟩ := ih _ h
    simp only [deleteTask, List.mem_filter] at hmem
    refine ⟨hmem.1, ?_⟩
    intro r' hr'
    rcases List.mem_cons.mp hr' with hr' | hr'
    · subst hr'
      simpa using hmem.2
    · exact hall r' hr'

theorem projects_foldl_deleteTask (l : List Task) (s : StoreState) :
    (l.foldl (fun acc t => (deleteTask acc t.id).2) s).projects = s.projects := by
  induction l generalizing s with
  | nil => rfl
  | cons r rs ih => simpa [deleteTask] using ih _

theorem length_filter_add_length_filter_le {α : Type} (l : List α)
    (p q : α → Bool) (hdisj : ∀ x, p x = true → q x = false) :
    (l.filter p).length + (l.filter q).length ≤ l.length := by
  induction l with
  | nil => simp
  | cons x xs ih =>
    by_cases hp : p x = true
    · have hq := hdisj x hp
      simp [List.filter_cons, hp, hq]
      omega
    · by_cases hq : q x = true <;>
        simp [List.filter_cons, hp, hq] <;> omega

/-- Model of `DatabaseStorage.deleteProject(id)` (src/server/storage.ts:275): a
single `DELETE FROM projects WHERE id = ?` whose `ON DELETE CASCADE`
constraint on `tasks.project_id` (src/shared/schema.ts:56) removes the
dependent tasks; the `returning` clause reports whether a row existed. -/
def dbDeleteProject (s : StoreState) (id : Nat) : Bool × StoreState :=
  ((getProject s id).isSome,
   { s with
     projects := s.projects.filter (fun p => !(p.id == id))
     tasks := s.tasks.filter (fun t => !(t.projectId == id)) })

/-! Concrete fixtures used by witnesses and counterexamples. -/

/-- Fixture: a project owned by user 1 with a due date. -/
def projectA : Project :=
  { id := 1, name := "p", description := none, status := some "planning",
    userId := 1, createdAt := 0, dueDate := some 7 }

/-- Fixture: a project owned by user 2. -/
def projectB : Project :=
  { id := 2, name := "q", description := none, status := some "planning",
    userId := 2, createdAt := 0, dueDate := none }

/-- Fixture: an uncompleted task of user 1 in project 1. -/
def taskA : Task :=
  { id := 1, title := "t", description := none, status := some "todo",
    userId := 1, projectId := 1, completed := false, createdAt := 0,
    completedAt := none, dueDate := none }

/-- Fixture: a store with one project and one task, both owned by user 1. -/
def stateA : StoreState :=
  { projects := [projectA], tasks := [taskA],
    projectIdCounter := 2, taskIdCounter := 2 }

/-- Fixture: a store holding projects of two different users. -/
def stateB : StoreState :=
  { projects := [projectA, projectB], tasks := [taskA],
    projectIdCounter := 3, taskIdCounter := 2 }

/-- Fixture: a store where user 1 already owns four projects. -/
def stateFour : StoreState :=
  { projects := [projectA, { projectA with id := 2 },
                 { projectA with id := 3 }, { projectA with id := 4 }],
    tasks := [taskA], projectIdCounter := 5, taskIdCounter := 2 }

/-- Fixture: a minimal valid create/update-project body. -/
def bodyN : ProjectBody := { name := some "n" }

/-! Claim C1 — project quota. -/

/-- Fields guaranteed by a successful `projectValidationSchema` parse. -/
theorem parseProjectBody_fields (b : ProjectBody) (uid : Nat)
    (pd : ProjectData) (h : parseProjectBody b uid = some pd) :
    pd.userId = uid ∧ pd.dueDate = b.dueDate.join ∧ pd.status = b.status ∧
    (b.description = none → pd.description = none) := by
  unfold parseProjectBody at h
  cases hb : b.name with
  | none => rw [hb] at h; cases h
  | some name =>
    rw [hb] at h
    simp only [Option.bind_eq_bind, Option.some_bind] at h
    by_cases hlen : (name.length < 1 || name.length > 100) = true
    · rw [if_pos hlen] at h; cases h
    · rw [if_neg hlen] at h
      cases hd : checkDescription b.description with
      | none => rw [hd] at h; cases h
      | some d =>
        rw [hd] at h
        simp only [Option.bind_eq_bind, Option.some_bind, Option.pure_def, Option.some_inj] at h
        subst h
        refine ⟨rfl, rfl, rfl, ?_⟩
        intro hbd
        rw [hbd] at hd
        simp [checkDescription] at hd
        simp [hd]

/-- Single-step preservation of the quota bound by `POST /api/projects`. -/
theorem countProjects_createProjectRoute_le (s : StoreState) (uid : Nat)
    (b : ProjectBody) (now : Nat) (h : countProjectsByUserId s uid ≤ 4) :
    countProjectsByUserId (createProjectRoute s uid b now).2 uid ≤ 4 := by
  unfold createProjectRoute
  by_cases hq : 4 ≤ countProjectsByUserId s uid
  · simpa [hq] using h
  · cases hpd : parseProjectBody b uid with
    | none => simpa [hq, hpd] using h
    | some pd =>
      have hlt : countProjectsByUserId s uid < 4 := by omega
      simp only [hq, if_false, hpd, if_neg]
      have hle := length_filter_setById_le Project.id s.projects
        s.projectIdCounter
        { id := s.projectIdCounter, name := pd.name,
          description := pd.description.join, status := pd.status,
          userId := pd.userId, createdAt := now, dueDate := pd.dueDate }
        (fun p => p.userId == uid)
      simp only [countProjectsByUserId, getProjectsByUserId, createProject] at *
      omega

/-- Quota bound along any sequence of create-project calls by one user. -/
theorem countProjects_foldl_createProjectRoute_le
    (ops : List (ProjectBody × Nat)) (s : StoreState) (uid : Nat)
    (h : countProjectsByUserId s uid ≤ 4) :
    countProjectsByUserId
      (ops.foldl (fun st op => (createProjectRoute st uid op.1 op.2).2) s)
      uid ≤ 4 := by
  induction ops generalizing s with
  | nil => simpa using h
  | cons op rest ih =>
    simp only [List.foldl_cons]
    exact ih _ (countProjects_createProjectRoute_le _ _ _ _ h)

/-- C1: when the user already owns 4 or more projects, `POST /api/projects`
fails with `QuotaExceeded` (400 "Maximum of 4 projects allowed") and the
store is unchanged; when the quota is not reached and the fields validate,
the project is created and stored under the principal; consequently, along
every sequence of create-project calls by one user starting from a state
within quota, the stored count of that user's projects never exceeds 4. -/
theorem createProjectRoute_quota (s : StoreState) (uid : Nat)
    (b : ProjectBody) (now : Nat) :
    (4 ≤ countProjectsByUserId s uid →
      createProjectRoute s uid b now = (.quotaExceeded, s)) ∧
    (countProjectsByUserId s uid < 4 → ∀ pd, parseProjectBody b uid = some pd →
      ∃ p, (createProjectRoute s uid b now).1 = .ok p ∧
        getProject (createProjectRoute s uid b now).2 p.id = some p ∧
        p.userId = uid) ∧
    (∀ ops : List (ProjectBody × Nat), countProjectsByUserId s uid ≤ 4 →
      countProjectsByUserId
        (ops.foldl (fun st op => (createProjectRoute st uid op.1 op.2).2) s)
        uid ≤ 4) := by
  refine ⟨?_, ?_, ?_⟩
  · intro hq
    simp [createProjectRoute, hq]
  · intro hlt pd hpd
    have hq : ¬ 4 ≤ countProjectsByUserId s uid := by omega
    refine ⟨(createProject s pd now).1, ?_, ?_, ?_⟩
    · simp [createProjectRoute, hq, hpd]
    · simp only [createProjectRoute, hq, if_false, hpd]
      exact getById_setById_self Project.id s.projects _ _ rfl
    · simpa [createProject] using (parseProjectBody_fields b uid pd hpd).1
  · intro ops h
    exact countProjects_foldl_createProjectRoute_le ops s uid h

/-- Witness for `createProjectRoute_quota` at concrete inputs: a 5th
create by user 1 fails leaving the store unchanged, and a create in a
one-project store succeeds. -/
theorem createProjectRoute_quota_witness :
    (4 ≤ countProjectsByUserId stateFour 1 ∧
      createProjectRoute stateFour 1 bodyN 9 = (.quotaExceeded, stateFour)) ∧
    (countProjectsByUserId stateA 1 < 4 ∧
      parseProjectBody bodyN 1 = some
        { name := "n", description := none, status := none,
          userId := 1, dueDate := none } ∧
      ∃ p, (createProjectRoute stateA 1 bodyN 9).1 = .ok p ∧
        getProject (createProjectRoute stateA 1 bodyN 9).2 p.id = some p ∧
        p.userId = 1) ∧
    (countProjectsByUserId stateA 1 ≤ 4 ∧
      countProjectsByUserId
        (([(bodyN, 3), (bodyN, 4)] : List (ProjectBody × Nat)).foldl
          (fun st op => (createProjectRoute st 1 op.1 op.2).2) stateA) 1 ≤ 4) := by
  refine ⟨⟨by decide, (createProjectRoute_quota stateFour 1 bodyN 9).1 (by decide)⟩,
          ⟨by decide, by decide, (createProjectRoute_quota stateA 1 bodyN 9).2.1
            (by decide)
            { name := "n", description := none, status := none,
              userId := 1, dueDate := none } (by decide)⟩,
          ⟨by decide, (createProjectRoute_quota stateA 1 bodyN 3).2.2
            [(bodyN, 3), (bodyN, 4)] (by decide)⟩⟩

/-! Claim C3 — cascading project deletion. -/

/-- C3: `deleteProject` removes every stored task whose `projectId`
matches as well as the project itself; afterwards those task ids and the
project id look up to nothing, and the returned flag reports whether the
project existed.  Both the in-memory implementation and the model of the
database cascade satisfy this. -/
theorem deleteProject_cascades (s : StoreState) (pid : Nat) :
    (∀ t ∈ s.tasks, t.projectId = pid →
      getTask (deleteProject s pid).2 t.id = none) ∧
    getProject (deleteProject s pid).2 pid = none ∧
    (deleteProject s pid).1 = (getProject s pid).isSome ∧
    ((s.tasks.map Task.id).Nodup → ∀ t ∈ s.tasks, t.projectId = pid →
      getTask (dbDeleteProject s pid).2 t.id = none) ∧
    getProject (dbDeleteProject s pid).2 pid = none ∧
    (dbDeleteProject s pid).1 = (getProject s pid).isSome := by
  refine ⟨?_, ?_, ?_, ?_, ?_, ?_⟩
  · intro t ht hpid
    apply List.find?_eq_none.mpr
    intro x hx
    simp only [deleteProject] at hx
    obtain ⟨hmem, hall⟩ := mem_tasks_foldl_deleteTask _ _ _ hx
    have htrel : t ∈ getTasksByProjectId s pid := by
      simp [getTasksByProjectId, List.mem_filter, ht, hpid]
    simpa using hall t htrel
  · apply List.find?_eq_none.mpr
    intro x hx
    simp only [deleteProject, List.mem_filter] at hx
    simpa using hx.2
  · simp only [deleteProject, getProject, getById, projects_foldl_deleteTask]
  · intro hnd t ht hpid
    apply List.find?_eq_none.mpr
    intro x hx
    simp only [dbDeleteProject, List.mem_filter] at hx
    have hxp : ¬ x.projectId = pid := by simpa using hx.2
    intro hid
    have hxid : x.id = t.id := by simpa using hid
    have hxt : x = t := List.inj_on_of_nodup_map hnd hx.1 ht hxid
    exact hxp (hxt ▸ hpid)
  · apply List.find?_eq_none.mpr
    intro x hx
    simp only [dbDeleteProject, List.mem_filter] at hx
    simpa using hx.2
  · rfl

/-- Witness for `deleteProject_cascades`: deleting project 1 of the
one-project fixture removes its task and the project, and reports that
the project existed; the database cascade model agrees. -/
theorem deleteProject_cascades_witness :
    (taskA ∈ stateA.tasks ∧ taskA.projectId = 1 ∧
      getTask (deleteProject stateA 1).2 taskA.id = none) ∧
    getProject (deleteProject stateA 1).2 1 = none ∧
    (deleteProject stateA 1).1 = (getProject stateA 1).isSome ∧
    ((stateA.tasks.map Task.id).Nodup ∧
      getTask (dbDeleteProject stateA 1).2 taskA.id = none) := by
  refine ⟨⟨by decide, by decide,
      (deleteProject_cascades stateA 1).1 taskA (by decide) (by decide)⟩,
    (deleteProject_cascades stateA 1).2.1,
    (deleteProject_cascades stateA 1).2.2.1,
    ⟨by decide,
      (deleteProject_cascades stateA 1).2.2.2.1 (by decide) taskA
        (by decide) (by decide)⟩⟩

/-! Claim C5 — unconditional completion. -/

/-- The record update performed by `completeTask` (the object spread at
src/server/storage.ts:194): `completed = true`, `status = "completed"`,
`completedAt = now`, everything else untouched. -/
def markCompleted (t : Task) (now : Nat) : Task :=
  { t with
    completed := true
    status := some "completed"
    completedAt := some now }

/-- C5: `completeTask` signals absence (`undefined`, surfaced by the
route as 404) when the task does not exist, and otherwise
unconditionally stores `completed = true`, `status = "completed"`,
`completedAt = now`, whatever the prior state; completing an
already-completed task succeeds again with its timestamp refreshed to
the (no earlier) second call time. -/
theorem completeTask_spec (s : StoreState) (id now now₂ : Nat) :
    (getTask s id = none → completeTask s id now = (none, s) ∧
      ∀ uid, completeTaskRoute s uid id now = (.notFound, s)) ∧
    (∀ t, getTask s id = some t →
      (completeTask s id now).1 = some (markCompleted t now) ∧
      getTask (completeTask s id now).2 id = some (markCompleted t now)) ∧
    (∀ t, getTask s id = some t → now ≤ now₂ →
      (completeTask (completeTask s id now).2 id now₂).1 =
        some (markCompleted t now₂) ∧ now ≤ now₂) := by
  refine ⟨?_, ?_, ?_⟩
  · intro h
    constructor
    · simp [completeTask, h]
    · intro uid
      simp [completeTaskRoute, h]
  · intro t ht
    have hid : t.id = id := by
      have := List.find?_some ht
      simpa using this
    constructor
    · simp [completeTask, markCompleted, ht]
    · simp only [completeTask, markCompleted, ht]
      exact getById_setById_self Task.id s.tasks id _ (by simpa using hid)
  · intro t ht hle
    have hid : t.id = id := by simpa using List.find?_some ht
    have h2 : getTask (completeTask s id now).2 id =
        some (markCompleted t now) := by
      simp only [completeTask, markCompleted, ht]
      exact getById_setById_self Task.id s.tasks id _ (by simpa using hid)
    constructor
    · revert h2
      generalize (completeTask s id now).2 = s'
      intro h2
      simp only [completeTask, h2]
      simp [markCompleted]
    · exact hle

/-- Witness for `completeTask_spec`: completing task 1 of the fixture at
time 3 and again at time 5. -/
theorem completeTask_spec_witness :
    (getTask stateA 99 = none ∧ completeTask stateA 99 3 = (none, stateA)) ∧
    (getTask stateA 1 = some taskA ∧
      (completeTask stateA 1 3).1 = some (markCompleted taskA 3)) ∧
    ((3 : Nat) ≤ 5 ∧
      (completeTask (completeTask stateA 1 3).2 1 5).1 =
        some (markCompleted taskA 5)) := by
  refine ⟨⟨by decide, ((completeTask_spec stateA 99 3 5).1 (by decide)).1⟩,
    ⟨by decide, ((completeTask_spec stateA 1 3 5).2.1 taskA (by decide)).1⟩,
    ⟨by decide, ((completeTask_spec stateA 1 3 5).2.2 taskA (by decide)
      (by decide)).1⟩⟩

/-! Claim C8 — stats aggregation. -/

/-- Composition of two filters as a single count. -/
theorem length_filter_filter {α : Type} (l : List α) (p q : α → Bool) :
    ((l.filter p).filter q).length =
      (l.filter (fun x => p x && q x)).length := by
  rw [List.filter_filter]
  congr 1
  apply List.filter_congr
  intro x _
  exact Bool.and_comm _ _

/-- C8: `GET /api/stats` returns the count of the user's projects, the
count of the user's tasks, the count of those tasks that are completed,
and the count of those that are uncompleted with status exactly
"in-progress"; hence `completedTasks + inProgressTasks ≤ totalTasks` in
every state. -/
theorem getStatsRoute_spec (s : StoreState) (uid : Nat) :
    (getStatsRoute s uid).totalProjects =
      (s.projects.filter (fun p => p.userId == uid)).length ∧
    (getStatsRoute s uid).totalTasks =
      (s.tasks.filter (fun t => t.userId == uid)).length ∧
    (getStatsRoute s uid).completedTasks =
      (s.tasks.filter (fun t => t.userId == uid && t.completed)).length ∧
    (getStatsRoute s uid).inProgressTasks =
      (s.tasks.filter (fun t => t.userId == uid &&
        (!t.completed && t.status == some "in-progress"))).length ∧
    (getStatsRoute s uid).completedTasks +
      (getStatsRoute s uid).inProgressTasks ≤
      (getStatsRoute s uid).totalTasks := by
  refine ⟨rfl, rfl, ?_, ?_, ?_⟩
  · simp only [getStatsRoute, getTasksByUserId]
    exact length_filter_filter s.tasks _ _
  · simp only [getStatsRoute, getTasksByUserId]
    exact length_filter_filter s.tasks _ _
  · simp only [getStatsRoute]
    apply length_filter_add_length_filter_le
    intro t hp
    simp [hp]

/-! Claim C6 — uniform ownership guard on by-id operations. -/

/-- C6: every by-id handler (get/update/delete on projects, and
get/update/delete/complete on tasks) answers `NotFound` when no entity
with the id exists and `Forbidden` (with no entity payload and the store
unchanged) when the entity exists but is owned by another principal. -/
theorem byId_ownership_guard (s : StoreState) (uid pid tid : Nat)
    (pb : ProjectBody) (tb : TaskUpdate) (now : Nat) :
    (getProject s pid = none →
      getProjectRoute s uid pid = .notFound ∧
      updateProjectRoute s uid pid pb = (.notFound, s) ∧
      deleteProjectRoute s uid pid = (.notFound, s)) ∧
    (∀ p, getProject s pid = some p → p.userId ≠ uid →
      getProjectRoute s uid pid = .forbidden ∧
      updateProjectRoute s uid pid pb = (.forbidden, s) ∧
      deleteProjectRoute s uid pid = (.forbidden, s)) ∧
    (getTask s tid = none →
      getTaskRoute s uid tid = .notFound ∧
      updateTaskRoute s uid tid tb now = (.notFound, s) ∧
      deleteTaskRoute s uid tid = (.notFound, s) ∧
      completeTaskRoute s uid tid now = (.notFound, s)) ∧
    (∀ t, getTask s tid = some t → t.userId ≠ uid →
      getTaskRoute s uid tid = .forbidden ∧
      updateTaskRoute s uid tid tb now = (.forbidden, s) ∧
      deleteTaskRoute s uid tid = (.forbidden, s) ∧
      completeTaskRoute s uid tid now = (.forbidden, s)) := by
  refine ⟨?_, ?_, ?_, ?_⟩
  · intro h
    exact ⟨by simp [getProjectRoute, h], by simp [updateProjectRoute, h],
      by simp [deleteProjectRoute, h]⟩
  · intro p hp hne
    exact ⟨by simp [getProjectRoute, hp, hne],
      by simp [updateProjectRoute, hp, hne],
      by simp [deleteProjectRoute, hp, hne]⟩
  · intro h
    exact ⟨by simp [getTaskRoute, h], by simp [updateTaskRoute, h],
      by simp [deleteTaskRoute, h], by simp [completeTaskRoute, h]⟩
  · intro t ht hne
    exact ⟨by simp [getTaskRoute, ht, hne],
      by simp [updateTaskRoute, ht, hne],
      by simp [deleteTaskRoute, ht, hne],
      by simp [completeTaskRoute, ht, hne]⟩

/-- Witness for `byId_ownership_guard`: principal 2 against the entities
of user 1, and lookups of a nonexistent id 99. -/
theorem byId_ownership_guard_witness :
    (getProject stateB 99 = none ∧
      getProjectRoute stateB 2 99 = .notFound ∧
      updateProjectRoute stateB 2 99 bodyN = (.notFound, stateB) ∧
      deleteProjectRoute stateB 2 99 = (.notFound, stateB)) ∧
    (getProject stateB 1 = some projectA ∧ projectA.userId ≠ 2 ∧
      getProjectRoute stateB 2 1 = .forbidden ∧
      updateProjectRoute stateB 2 1 bodyN = (.forbidden, stateB) ∧
      deleteProjectRoute stateB 2 1 = (.forbidden, stateB)) ∧
    (getTask stateB 99 = none ∧
      getTaskRoute stateB 2 99 = .notFound ∧
      updateTaskRoute stateB 2 99 {} 0 = (.notFound, stateB) ∧
      deleteTaskRoute stateB 2 99 = (.notFound, stateB) ∧
      completeTaskRoute stateB 2 99 0 = (.notFound, stateB)) ∧
    (getTask stateB 1 = some taskA ∧ taskA.userId ≠ 2 ∧
      getTaskRoute stateB 2 1 = .forbidden ∧
      updateTaskRoute stateB 2 1 {} 0 = (.forbidden, stateB) ∧
      deleteTaskRoute stateB 2 1 = (.forbidden, stateB) ∧
      completeTaskRoute stateB 2 1 0 = (.forbidden, stateB)) := by
  have h1 := (byId_ownership_guard stateB 2 99 99 bodyN {} 0).1 (by decide)
  have h2 := (byId_ownership_guard stateB 2 1 1 bodyN {} 0).2.1 projectA
    (by decide) (by decide)
  have h3 := (byId_ownership_guard stateB 2 99 99 bodyN {} 0).2.2.1 (by decide)
  have h4 := (byId_ownership_guard stateB 2 1 1 bodyN {} 0).2.2.2 taskA
    (by decide) (by decide)
  exact ⟨⟨by decide, h1.1, h1.2.1, h1.2.2⟩,
    ⟨by decide, by decide, h2.1, h2.2.1, h2.2.2⟩,
    ⟨by decide, h3.1, h3.2.1, h3.2.2.1, h3.2.2.2⟩,
    ⟨by decide, by decide, h4.1, h4.2.1, h4.2.2.1, h4.2.2.2⟩⟩

/-! Claim C7 — ownership re-check when a task update moves projects. -/

/-- Counterexample to C7 as stated: in the one-project fixture, user 1
updates task 1 supplying `projectId: 0`, which differs from the stored
`projectId` 1 and names no existing project — yet the update succeeds
(JavaScript's `req.body.projectId &&` guard treats 0 as falsy and skips
the re-check) and stores the task with `projectId = 0`, instead of
failing with `NotFound` and leaving the task unchanged. -/
theorem updateTaskRoute_projectId_zero_bypass :
    getTask stateA 1 = some taskA ∧ taskA.projectId = 1 ∧ (0 : Nat) ≠ 1 ∧
    getProject stateA 0 = none ∧
    (updateTaskRoute stateA 1 1 ({ projectId := some 0 } : TaskUpdate) 5).1 =
      .ok { taskA with projectId := 0 } ∧
    getTask (updateTaskRoute stateA 1 1 ({ projectId := some 0 } : TaskUpdate) 5).2 1 =
      some { taskA with projectId := 0 } := by decide

/-- C7 as amended: for task updates whose supplied `projectId` is
nonzero (truthy) and differs from the stored one, the new target project
is re-checked before the move — a missing project yields `NotFound`, a
foreign-owned one yields `Forbidden`, and in both failure cases the
store (hence the task) is unchanged.  A supplied `projectId` of 0
bypasses the re-check. -/
theorem updateTaskRoute_projectId_guard (s : StoreState) (uid tid : Nat)
    (b : TaskUpdate) (now p : Nat) (t : Task)
    (ht : getTask s tid = some t) (hown : t.userId = uid)
    (hp : b.projectId = some p) (hp0 : p ≠ 0) (hne : p ≠ t.projectId) :
    (getProject s p = none → updateTaskRoute s uid tid b now = (.notFound, s)) ∧
    (∀ pr, getProject s p = some pr → pr.userId ≠ uid →
      updateTaskRoute s uid tid b now = (.forbidden, s)) := by
  constructor
  · intro hpr
    simp [updateTaskRoute, ht, hown, hp, hp0, hne, hpr]
  · intro pr hpr hprne
    simp [updateTaskRoute, ht, hown, hp, hp0, hne, hpr, hprne]

/-- Witness for `updateTaskRoute_projectId_guard`: user 1 moving task 1
to the nonexistent project 3, and to project 2 owned by user 2. -/
theorem updateTaskRoute_projectId_guard_witness :
    (getTask stateB 1 = some taskA ∧ taskA.userId = 1 ∧ (3 : Nat) ≠ 0 ∧
      (3 : Nat) ≠ taskA.projectId ∧ getProject stateB 3 = none ∧
      updateTaskRoute stateB 1 1 ({ projectId := some 3 } : TaskUpdate) 0 =
        (.notFound, stateB)) ∧
    ((2 : Nat) ≠ 0 ∧ (2 : Nat) ≠ taskA.projectId ∧
      getProject stateB 2 = some projectB ∧ projectB.userId ≠ 1 ∧
      updateTaskRoute stateB 1 1 ({ projectId := some 2 } : TaskUpdate) 0 =
        (.forbidden, stateB)) := by
  refine ⟨⟨by decide, by decide, by decide, by decide, by decide, ?_⟩,
          ⟨by decide, by decide, by decide, by decide, ?_⟩⟩
  · exact (updateTaskRoute_projectId_guard stateB 1 1
      ({ projectId := some 3 } : TaskUpdate) 0 3 taskA (by decide) (by decide)
      (by decide) (by decide) (by decide)).1 (by decide)
  · exact (updateTaskRoute_projectId_guard stateB 1 1
      ({ projectId := some 2 } : TaskUpdate) 0 2 taskA (by decide) (by decide)
      (by decide) (by decide) (by decide)).2 projectB (by decide) (by decide)

/-! Claim C9 — update-project merge semantics. -/

/-- Counterexample to C9 as stated: project 1 of the fixture stores
`dueDate = 7`; user 1 updates it with a body supplying only `name` — the
absent `dueDate` does not retain its prior value but is overwritten with
`null` (the zod transform materialises the key).  Moreover a body
without `name` is not accepted as a partial update at all: it fails
validation instead of merging. -/
theorem updateProjectRoute_overwrites_absent_dueDate :
    getProject stateA 1 = some projectA ∧ projectA.userId = 1 ∧
    projectA.dueDate = some 7 ∧ bodyN.dueDate = none ∧
    (updateProjectRoute stateA 1 1 bodyN).1 =
      .ok { projectA with name := "n", dueDate := none } ∧
    (updateProjectRoute stateA 1 1
      ({ description := some (some "d") } : ProjectBody)).1 =
      .validationFailed := by decide

/-- C9 as amended: for an existing project owned by the principal, the
update accepts a body that passes `projectValidationSchema` — which
requires `name` — and merges: supplied fields are overwritten, absent
`description` and `status` retain their prior stored values, `id` and
`createdAt` are always retained, `userId` is forced to the principal,
but `dueDate` is always overwritten with the body's value-or-null; the
merged record is returned and stored.  A body failing validation (for
example one without `name`) yields `ValidationError` with the store
unchanged, and `NotFound` is signalled only when no project with that id
exists. -/
theorem updateProjectRoute_merge_spec (s : StoreState) (uid pid : Nat)
    (b : ProjectBody) :
    (getProject s pid = none →
      updateProjectRoute s uid pid b = (.notFound, s)) ∧
    (∀ p, getProject s pid = some p → p.userId = uid →
      (parseProjectBody b uid = none →
        updateProjectRoute s uid pid b = (.validationFailed, s)) ∧
      (∀ pd, parseProjectBody b uid = some pd →
        updateProjectRoute s uid pid b =
          (.ok (applyProjectUpdate p pd), (updateProject s pid pd).2) ∧
        getProject (updateProject s pid pd).2 pid =
          some (applyProjectUpdate p pd) ∧
        (applyProjectUpdate p pd).id = p.id ∧
        (applyProjectUpdate p pd).createdAt = p.createdAt ∧
        (applyProjectUpdate p pd).name = pd.name ∧
        (applyProjectUpdate p pd).userId = uid ∧
        (applyProjectUpdate p pd).dueDate = b.dueDate.join ∧
        (b.description = none →
          (applyProjectUpdate p pd).description = p.description) ∧
        (b.status = none → (applyProjectUpdate p pd).status = p.status))) := by
  constructor
  · intro h
    simp [updateProjectRoute, h]
  · intro p hp hown
    constructor
    · intro hpd
      simp [updateProjectRoute, hp, hown, hpd]
    · intro pd hpd
      obtain ⟨huid, hdue, hstat, hdesc⟩ := parseProjectBody_fields b uid pd hpd
      have hpid : p.id = pid := by simpa using List.find?_some hp
      refine ⟨?_, ?_, rfl, rfl, rfl, ?_, ?_, ?_, ?_⟩
      · simp [updateProjectRoute, updateProject, hp, hown, hpd]
      · simp only [updateProject, hp]
        exact getById_setById_self Project.id s.projects pid _
          (by simpa [applyProjectUpdate] using hpid)
      · simp [applyProjectUpdate, huid]
      · simp [applyProjectUpdate, hdue]
      · intro hbd
        simp [applyProjectUpdate, hdesc hbd]
      · intro hbs
        rw [hbs] at hstat
        simp [applyProjectUpdate, hstat]

/-- Witness for `updateProjectRoute_merge_spec`: the three branches at
concrete inputs — missing project 99, a validation failure (body without
`name`), and a successful merge of `bodyN` into project 1. -/
theorem updateProjectRoute_merge_spec_witness :
    (getProject stateA 99 = none ∧
      updateProjectRoute stateA 1 99 bodyN = (.notFound, stateA)) ∧
    (getProject stateA 1 = some projectA ∧ projectA.userId = 1 ∧
      parseProjectBody ({ description := some (some "d") } : ProjectBody) 1 =
        none ∧
      updateProjectRoute stateA 1 1
        ({ description := some (some "d") } : ProjectBody) =
        (.validationFailed, stateA)) ∧
    (parseProjectBody bodyN 1 = some
        { name := "n", description := none, status := none,
          userId := 1, dueDate := none } ∧
      updateProjectRoute stateA 1 1 bodyN =
        (.ok (applyProjectUpdate projectA
            { name := "n", description := none, status := none,
              userId := 1, dueDate := none }),
          (updateProject stateA 1
            { name := "n", description := none, status := none,
              userId := 1, dueDate := none }).2) ∧
      (applyProjectUpdate projectA
          { name := "n", description := none, status := none,
            userId := 1, dueDate := none }).createdAt = projectA.createdAt) := by
  refine ⟨⟨by decide, (updateProjectRoute_merge_spec stateA 1 99 bodyN).1
      (by decide)⟩, ⟨by decide, by decide, by decide, ?_⟩, ⟨by decide, ?_, ?_⟩⟩
  · exact ((updateProjectRoute_merge_spec stateA 1 1
      ({ description := some (some "d") } : ProjectBody)).2 projectA
      (by decide) (by decide)).1 (by decide)
  · exact (((updateProjectRoute_merge_spec stateA 1 1 bodyN).2 projectA
      (by decide) (by decide)).2
      { name := "n", description := none, status := none,
        userId := 1, dueDate := none } (by decide)).1
  · exact (((updateProjectRoute_merge_spec stateA 1 1 bodyN).2 projectA
      (by decide) (by decide)).2
      { name := "n", description := none, status := none,
        userId := 1, dueDate := none } (by decide)).2.2.2.1

/-! Claim C4 — edge-triggered `completedAt` on task updates. -/

/-- Fixture: a task with `completed = false` but a non-null
`completedAt`. -/
def taskStale : Task := { taskA with completedAt := some 5 }

/-- Fixture: a store holding `taskStale`. -/
def stateStale : StoreState := { stateA with tasks := [taskStale] }

/-- Counterexample to C4 as stated: the database-backed `updateTask`
(src/server/storage.ts:330) clears `completedAt` whenever the update
supplies `completed: false`, even when the stored task already has
`completed = false` — a case in which the claim requires `completedAt`
to retain its prior value (here `5`). -/
theorem dbUpdateTask_clears_on_redundant_false :
    getTask stateStale 1 = some taskStale ∧
    taskStale.completed = false ∧ taskStale.completedAt = some 5 ∧
    (dbUpdateTask stateStale 1 ({ completed := some false } : TaskUpdate) 9).1 =
      some { taskStale with completedAt := none } := by decide

/-- C4 as amended, for updates that do not themselves carry a
`completedAt` field: the in-memory `updateTask` is edge-triggered
exactly as claimed (set on false→true, clear on true→false, retain when
`completed` is omitted or equals the stored value); the database-backed
`updateTask` sets `completedAt = now` on false→true, retains it when
`completed` is omitted or is a redundant `true`, but clears it to null
whenever the update supplies `completed: false`, including the
redundant false→false case. -/
theorem updateTask_completedAt_rules (s : StoreState) (id now : Nat)
    (u : TaskUpdate) (t : Task) (ht : getTask s id = some t)
    (hca : u.completedAt = none) :
    ((u.completed = some true ∧ t.completed = false) →
      ((memUpdateTask s id u now).1.map Task.completedAt = some (some now) ∧
       (dbUpdateTask s id u now).1.map Task.completedAt = some (some now))) ∧
    ((u.completed = some false ∧ t.completed = true) →
      ((memUpdateTask s id u now).1.map Task.completedAt = some none ∧
       (dbUpdateTask s id u now).1.map Task.completedAt = some none)) ∧
    ((u.completed = none ∨ u.completed = some t.completed) →
      (memUpdateTask s id u now).1.map Task.completedAt =
        some t.completedAt) ∧
    ((u.completed = none ∨ (u.completed = some true ∧ t.completed = true)) →
      (dbUpdateTask s id u now).1.map Task.completedAt =
        some t.completedAt) ∧
    (u.completed = some false →
      (dbUpdateTask s id u now).1.map Task.completedAt = some none) := by
  refine ⟨?_, ?_, ?_, ?_, ?_⟩
  · rintro ⟨hc, htc⟩
    constructor
    · simp [memUpdateTask, ht, hc, htc]
    · simp [dbUpdateTask, ht, hc, htc, applyTaskUpdate]
  · rintro ⟨hc, htc⟩
    constructor
    · simp [memUpdateTask, ht, hc, htc]
    · simp [dbUpdateTask, ht, hc, htc, applyTaskUpdate]
  · rintro (hc | hc)
    · simp [memUpdateTask, ht, hc, applyTaskUpdate, hca]
    · cases htc : t.completed <;>
        simp [memUpdateTask, ht, hc, htc, applyTaskUpdate, hca]
  · rintro (hc | ⟨hc, htc⟩)
    · simp [dbUpdateTask, ht, hc, applyTaskUpdate, hca]
    · simp [dbUpdateTask, ht, hc, htc, applyTaskUpdate, hca]
  · intro hc
    simp [dbUpdateTask, ht, hc, applyTaskUpdate]

/-- Witness for `updateTask_completedAt_rules`: the false→true edge on
the fixture task and the `completed`-omitted case on the stale task. -/
theorem updateTask_completedAt_rules_witness :
    (getTask stateA 1 = some taskA ∧ taskA.completed = false ∧
      (memUpdateTask stateA 1 ({ completed := some true } : TaskUpdate) 9).1.map
        Task.completedAt = some (some 9) ∧
      (dbUpdateTask stateA 1 ({ completed := some true } : TaskUpdate) 9).1.map
        Task.completedAt = some (some 9)) ∧
    (getTask stateStale 1 = some taskStale ∧
      (memUpdateTask stateStale 1 ({} : TaskUpdate) 9).1.map
        Task.completedAt = some taskStale.completedAt ∧
      (dbUpdateTask stateStale 1 ({} : TaskUpdate) 9).1.map
        Task.completedAt = some taskStale.completedAt) := by
  have h1 := (updateTask_completedAt_rules stateA 1 9
    ({ completed := some true } : TaskUpdate) taskA (by decide) (by decide)).1
    ⟨by decide, by decide⟩
  have h2 := updateTask_completedAt_rules stateStale 1 9 ({} : TaskUpdate)
    taskStale (by decide) (by decide)
  exact ⟨⟨by decide, by decide, h1.1, h1.2⟩,
    ⟨by decide, h2.2.2.1 (Or.inl (by decide)), h2.2.2.2.1 (Or.inl (by decide))⟩⟩

/-! Claim C2 — denormalised task ownership invariant. -/

/-- C2 is violated by the code: starting from the fixture store, where
task 1's `userId` (1) equals the owner of its project 1, the owner
issues `PUT /api/tasks/1` with body `{"userId": 2}`.  The handler passes
the raw body to `updateTask`, the write succeeds with 200, and the
stored task now carries `userId = 2` while its project is still owned by
user 1 — the claimed invariant fails after a successful write. -/
theorem updateTaskRoute_breaks_owner_invariant :
    (getProject stateA taskA.projectId).map Project.userId =
      some taskA.userId ∧
    (updateTaskRoute stateA 1 1 ({ userId := some 2 } : TaskUpdate) 5).1 =
      .ok { taskA with userId := 2 } ∧
    getTask (updateTaskRoute stateA 1 1 ({ userId := some 2 } : TaskUpdate) 5).2
      1 = some { taskA with userId := 2 } ∧
    (getProject (updateTaskRoute stateA 1 1
        ({ userId := some 2 } : TaskUpdate) 5).2
      ({ taskA with userId := 2 } : Task).projectId).map Project.userId =
      some 1 ∧
    ({ taskA with userId := 2 } : Task).userId = 2 ∧ (1 : Nat) ≠ 2 := by
  decide

/-! Claim C10 — `completedAt` is null on creation. -/

/-- Fixture: a create-task body that sets `completed: true`. -/
def bodyT : TaskBody :=
  { title := some "t2", projectId := some 1, completed := some true }

/-- Fixture: the task stored by `POST /api/tasks` for `bodyT` against
`stateA` at time 4. -/
def taskT : Task :=
  { id := 2, title := "t2", description := none, status := none,
    userId := 1, projectId := 1, completed := true, createdAt := 4,
    completedAt := none, dueDate := none }

/-- C10: every task accepted by `POST /api/tasks` is stored with
`completedAt = null` — `createTask` writes `completedAt: null` after the
spread — even when the validated input carries `completed: true`; the
concrete run stores a task with `completed = true` and
`completedAt = null`. -/
theorem createTask_completedAt_null (s : StoreState) (uid : Nat)
    (b : TaskBody) (now : Nat) :
    (∀ t s', createTaskRoute s uid b now = (.ok t, s') →
      t.completedAt = none ∧ getTask s' t.id = some t) ∧
    (∀ td : TaskData, (createTask s td now).1.completedAt = none) ∧
    (createTaskRoute stateA 1 bodyT 4).1 = .ok taskT ∧
    taskT.completed = true ∧ taskT.completedAt = none := by
  refine ⟨?_, fun td => rfl, by decide, rfl, rfl⟩
  intro t s' h
  cases hpd : parseTaskBody b uid with
  | none => simp [createTaskRoute, hpd] at h
  | some td =>
    cases hproj : getProject s td.projectId with
    | none => simp [createTaskRoute, hpd, hproj] at h
    | some p =>
      by_cases hown : p.userId ≠ uid
      · simp [createTaskRoute, hpd, hproj, hown] at h
      · simp only [createTaskRoute, hpd, hproj, if_neg hown] at h
        obtain ⟨hres, hst⟩ := Prod.mk.injEq .. ▸ h
        cases hres
        subst hst
        refine ⟨rfl, ?_⟩
        exact getById_setById_self Task.id s.tasks _ _ rfl

/-- Witness for `createTask_completedAt_null`: the concrete run of
`POST /api/tasks` with `bodyT` against the fixture store. -/
theorem createTask_completedAt_null_witness :
    (createTaskRoute stateA 1 bodyT 4 =
      (.ok taskT, (createTaskRoute stateA 1 bodyT 4).2) ∧
      taskT.completedAt = none ∧
      getTask (createTaskRoute stateA 1 bodyT 4).2 taskT.id = some taskT) ∧
    (createTask stateA
      { title := "t2", description := none, status := none, userId := 1,
        projectId := 1, completed := some true, dueDate := none }
      4).1.completedAt = none := by
  have h := (createTask_completedAt_null stateA 1 bodyT 4).1 taskT
    (createTaskRoute stateA 1 bodyT 4).2 (by decide)
  exact ⟨⟨by decide, h.1, h.2⟩,
    (createTask_completedAt_null stateA 1 bodyT 4).2.1 _⟩

end TaskFlow
